import Mathlib

/-!
Verification of the drbot batch script (drbot.py).

The script is a thin orchestration layer over an external review engine: it
resolves a manifest of rule-job files, runs the engine once per file, writes
findings into a workspace, summarises the findings table into an in-memory
log, and reports the log by file and by email.

Python strings are embedded as lists of characters (`PyStr`), so that the
indexing and slicing operations of the source (`path[1]`, `lin[:1]`,
`fcs[:6]`) become explicit and a missing index is an explicit failure
(`Option`).  Stateful code is embedded as pure functions threading the
in-memory log (`tmp_log_list`) and the emitted engine messages explicitly;
external effects (file reads, the review engine, `shutil`, smtp) are
parameters describing the outcome of each external call.
-/

/-- Python strings, embedded as lists of characters. -/
abbrev PyStr := List Char

/-- Convert a Lean string literal to the embedding type. -/
def str (s : String) : PyStr := s.data

/-- Decimal representation of a natural number, as used by Python format
slots receiving an integer. -/
def natStr (n : Nat) : PyStr := (Nat.repr n).data

/-- Python substring containment: `pat in text` for strings. -/
def isSubList (pat : PyStr) : PyStr → Bool
  | [] => pat.isEmpty
  | c :: rest => pat.isPrefixOf (c :: rest) || isSubList pat rest

/-- `TmpLog.count_lines_with`: the number of log lines containing `s` as a
substring. -/
def count_lines_with (log : List PyStr) (s : PyStr) : Nat :=
  (log.filter (fun itm => isSubList s itm)).length

/-- `TmpLog.contains_line_with`: whether some log line contains `s`. -/
def contains_line_with (log : List PyStr) (s : PyStr) : Bool :=
  log.any (fun itm => isSubList s itm)

/-- The module-level `found_marker` constant. -/
def found_marker : PyStr := str "Found"

/-- `os.path.join basepath p` for the posix convention used by the script
paths (a second argument that is absolute resets the result). -/
def os_path_join (basepath p : PyStr) : PyStr :=
  if p.head? = some '/' then p
  else if basepath = [] then p
  else if basepath.getLast? = some '/' then basepath ++ p
  else basepath ++ ('/' :: p)

/-- `os.path.dirname p`: everything before the last separator, with
trailing separators stripped unless the head is all separators. -/
def os_path_dirname (p : PyStr) : PyStr :=
  match p.reverse.findIdx? (fun c => c = '/') with
  | none => []
  | some k =>
    let head := p.take (p.length - k)
    if head.all (fun c => c = '/') then head
    else (head.reverse.dropWhile (fun c => c = '/')).reverse

/-- The slice `s[1 + s.rfind backslash :]` used to derive the session name
and the email subject from a path (the whole string when there is no
backslash). -/
def afterLastBS (s : PyStr) : PyStr :=
  match s.reverse.findIdx? (fun c => c = '\\') with
  | none => s
  | some k => s.drop (s.length - k)

/-- Python `s.split(sep)` for a one-character separator (keeps empty
fields, and the split of the empty string is one empty field). -/
def pySplit (sep : Char) : PyStr → List PyStr
  | [] => [[]]
  | c :: cs =>
    let r := pySplit sep cs
    if c = sep then [] :: r
    else
      match r with
      | h :: t => (c :: h) :: t
      | [] => [[c]]

/-- `DRBot.fix_path`: prefix `basepath` when the path is relative.  The
source tests `path[1] != colon and path[0] != slash`; evaluating `path[1]`
on a string of length below two raises IndexError, embedded as `none`. -/
def fix_path (path basepath : PyStr) : Option PyStr :=
  match path with
  | c0 :: c1 :: _ =>
    if c1 ≠ ':' ∧ c0 ≠ '/' then some (os_path_join basepath path) else some path
  | _ => none

/-- Left-to-right effectful map over `Option`: the first failure aborts,
exactly like an exception escaping a Python list comprehension. -/
def mapOpt (f : α → Option β) : List α → Option (List β)
  | [] => some []
  | a :: l =>
    match f a with
    | none => none
    | some b =>
      match mapOpt f l with
      | none => none
      | some bs => some (b :: bs)

/-- The manifest comprehension of `runDR`: keep the lines `lin` with
`lin[:1] != hash` and apply `fix_path lin (dirname rules)` to each. -/
def resolveRuleLines (lines : List PyStr) (basedir : PyStr) : Option (List PyStr) :=
  mapOpt (fun l => fix_path l basedir) (lines.filter (fun l => l.take 1 ≠ [ '#' ]))

/-- The value `fix_path` computes on a path of length at least two. -/
def fixPathVal (path basepath : PyStr) : PyStr :=
  match path with
  | c0 :: c1 :: _ =>
    if c1 ≠ ':' ∧ c0 ≠ '/' then os_path_join basepath path else path
  | _ => path

/-- One row of the findings table REVTABLEMAIN, in the field order of the
query in `summarise_dr_output`: check title, origin table (`fc`), subtype
(`fcs`), record id, free-text notes. -/
structure Row where
  title : PyStr
  fc : PyStr
  fcs : PyStr
  objectid : Nat
  notes : PyStr
deriving DecidableEq

/-- `encode_if_unicode`: in the embedding all strings are already text, so
the normalisation is the identity. -/
def encode_if_unicode (s : PyStr) : PyStr := s

/-- The per-row line of `summarise_dr_output`: the subtype segment is a
comma plus the first six characters of the subtype when the subtype is
non-empty, and empty otherwise. -/
def foundLine (r : Row) : PyStr :=
  let fcs_str := if r.fcs.length > 0 then str ", " ++ r.fcs.take 6 else []
  found_marker ++ str " " ++ r.fc ++ fcs_str ++ str ", OBJECTID=" ++ natStr r.objectid ++
    str ": " ++ encode_if_unicode r.title ++ str " (" ++ encode_if_unicode r.notes ++ str ")"

/-- The per-title subtotal line of `summarise_dr_output` (the source
format string ends in a newline). -/
def totalLine (cnt : Nat) (title : PyStr) : PyStr :=
  str "Total " ++ natStr cnt ++ str " DRBot hits for " ++ title ++ str "\n"

/-- The cursor loop of `summarise_dr_output`, with the loop state made
explicit: `prev` is `prev_check` and `cnt` is `check_count`.  The empty
string is the sentinel initial value of `prev_check`. -/
def sumLoop (prev : PyStr) (cnt : Nat) : List Row → List PyStr
  | [] => if prev = [] then [] else [totalLine cnt prev]
  | r :: rs =>
    if r.title = prev then foundLine r :: sumLoop prev (cnt + 1) rs
    else
      (if prev = [] then [] else [totalLine cnt prev]) ++
        (foundLine r :: sumLoop r.title 1 rs)

/-- `DRBot.summarise_dr_output`: append the loop output to the log, then
append a single no-errors line when no line of the whole log contains the
found marker. -/
def summarise_dr_output (log : List PyStr) (rows : List Row) : List PyStr :=
  let log2 := log ++ sumLoop [] 0 rows
  if count_lines_with log2 found_marker = 0 then log2 ++ [str "No errors found."] else log2

/-- A log line emitted as a per-title subtotal (starts with the literal
head of the subtotal format). -/
def isTotalL (l : PyStr) : Bool := (str "Total ").isPrefixOf l

/-- A log line emitted as a per-row finding (starts with the found marker
and the following space of the format). -/
def isFoundL (l : PyStr) : Bool := (str "Found ").isPrefixOf l

/-- Prepend one run onto a run-length decomposition, merging with the
first run when the titles agree. -/
def consRun (p : PyStr × Nat) : List (PyStr × Nat) → List (PyStr × Nat)
  | [] => [p]
  | q :: qs => if q.1 = p.1 then (p.1, p.2 + q.2) :: qs else p :: q :: qs

/-- Run-length decomposition of the row list by check title: one pair
(title, length) per maximal block of consecutive rows sharing a title. -/
def titleRuns : List Row → List (PyStr × Nat)
  | [] => []
  | r :: rs => consRun (r.title, 1) (titleRuns rs)

/-- The subtotal lines the loop owes a run-length decomposition: one
subtotal per run whose title is non-empty (the empty title coincides with
the sentinel of the loop and yields no subtotal). -/
def runsTotals (rs : List (PyStr × Nat)) : List PyStr :=
  rs.filterMap (fun p => if p.1 = [] then none else some (totalLine p.2 p.1))

/-- Boolean strict lexicographic comparison of embedded strings in
character order, the ordering of the CHECKTITLE sort key. -/
def strLtB : PyStr → PyStr → Bool
  | [], [] => false
  | [], _ :: _ => true
  | _ :: _, [] => false
  | a :: as, b :: bs => if a < b then true else if a = b then strLtB as bs else false

/-- Strict lexicographic order on embedded strings. -/
def strLt (a b : PyStr) : Prop := strLtB a b = true

instance (a b : PyStr) : Decidable (strLt a b) := by
  unfold strLt; infer_instance

/-- The pre-sorting of the findings query, ORDER BY CHECKTITLE, OBJECTID:
title strictly smaller, or equal titles and non-decreasing record ids. -/
def rowLe (a b : Row) : Prop :=
  strLt a.title b.title ∨ (a.title = b.title ∧ a.objectid ≤ b.objectid)

instance (a b : Row) : Decidable (rowLe a b) := by
  unfold rowLe; infer_instance

/-- Number of rows of the list carrying the given check title. -/
def countTitle (rows : List Row) (t : PyStr) : Nat :=
  (rows.filter (fun x => x.title == t)).length

/-- Decimal digit test used by the regex character class of
`parse_arc_error`. -/
def isDigitCh (c : Char) : Bool := '0' ≤ c && c ≤ '9'

/-- Value of a decimal digit string. -/
def digitsVal (ds : List Char) : Nat :=
  ds.foldl (fun a c => 10 * a + (c.toNat - 48)) 0

/-- Attempt the regex `ERROR 0+([1-9][0-9]*):` of `parse_arc_error` at the
start of the text, returning the captured group value.  The pattern is
deterministic: the zero run is maximal because the following character
class excludes the zero digit, and the digit run is maximal because the
colon is not a digit. -/
def matchErrorAt (cs : List Char) : Option Nat :=
  if (str "ERROR ").isPrefixOf cs then
    let rest := cs.drop 6
    let zeros := rest.takeWhile (fun c => c = '0')
    let after := rest.dropWhile (fun c => c = '0')
    if zeros = [] then none
    else
      match after with
      | [] => none
      | d :: ds =>
        if '1' ≤ d ∧ d ≤ '9' then
          let digs := ds.takeWhile isDigitCh
          match ds.dropWhile isDigitCh with
          | c :: _ => if c = ':' then some (digitsVal (d :: digs)) else none
          | [] => none
        else none
  else none

/-- `re.search`: try the pattern at every start position, left to right. -/
def searchError : List Char → Option Nat
  | [] => none
  | c :: cs =>
    match matchErrorAt (c :: cs) with
    | some n => some n
    | none => searchError cs

/-- `parse_arc_error`: extract the numeric engine error code from the
error message, re-raising the original error (the `Except.error` case)
when the pattern does not occur. -/
def parse_arc_error (msg : PyStr) : Except PyStr Nat :=
  match searchError msg with
  | none => Except.error msg
  | some n => Except.ok n

/-- The pattern `ERROR 0+([1-9][0-9]*):` occurs at the start of the text:
the literal head, one or more zero digits, a capture beginning with a
non-zero digit followed by digits, then a colon. -/
def hasErrCodeAt (cs : List Char) : Prop :=
  ∃ zs d ds post, cs = str "ERROR " ++ zs ++ (d :: ds) ++ (':' :: post) ∧
    zs ≠ [] ∧ (∀ c ∈ zs, c = '0') ∧ ('1' ≤ d ∧ d ≤ '9') ∧ (∀ c ∈ ds, isDigitCh c = true)

/-- The pattern occurs somewhere in the text. -/
def hasErrCode (cs : List Char) : Prop :=
  ∃ pre suf, cs = pre ++ suf ∧ hasErrCodeAt suf

instance : DecidableEq (Except PyStr Nat) := fun a b =>
  match a, b with
  | .ok x, .ok y => decidable_of_iff (x = y) (by simp)
  | .error x, .error y => decidable_of_iff (x = y) (by simp)
  | .ok _, .error _ => isFalse (by simp)
  | .error _, .ok _ => isFalse (by simp)

/-- Output of the per-rule-file loop of `runDR`: appended tmp_log lines,
emitted engine messages (`set_msg`), stdout prints, the rule files the
engine was invoked on, and the exception escaping the loop, if any. -/
structure LoopOut where
  log : List PyStr
  msgs : List PyStr
  out : List PyStr
  executed : List PyStr
  err : Option PyStr
deriving DecidableEq

/-- The tmp_log warning of the recoverable code-732 branch. -/
def notFoundWarning (rulefile : PyStr) : PyStr :=
  str "Found execution error: File " ++ rulefile ++ str " not found."

/-- The per-rule-file loop of `runDR`.  `engine rf = some m` means the
engine call on `rf` raised an ExecuteError with message `m`.  A raised
error whose parsed code is 732 is logged and the loop continues; any
other raised error escapes the loop (when `parse_arc_error` finds no code
it re-raises the same error object). -/
def runRulesLoop (engine : PyStr → Option PyStr) : List PyStr → LoopOut
  | [] => ⟨[], [], [], [], none⟩
  | rf :: rest =>
    let m1 := str "  Checking file: " ++ rf
    let o1 := str "Rules: " ++ rf
    match engine rf with
    | none =>
      let r := runRulesLoop engine rest
      ⟨r.log, m1 :: r.msgs, o1 :: r.out, rf :: r.executed, r.err⟩
    | some em =>
      if parse_arc_error em = Except.ok 732 then
        let r := runRulesLoop engine rest
        ⟨notFoundWarning rf :: r.log, m1 :: r.msgs, o1 :: r.out, rf :: r.executed, r.err⟩
      else ⟨[], [m1], [o1], [rf], some em⟩

/-- Placeholder for the text of `traceback.format_exc()`. -/
def traceback_format_exc : PyStr := str "Traceback (most recent call last):"

/-- Outcomes of the external calls a `runDR` run performs: the clock, the
module file name and formatted duration, the manifest read (`none` means
the open raised IOError, with `readErr` the errno and strerror), the
messages and possible exception of the workspace/session preparation
region, the SESSIONID values returned by the session-table cursor, the
engine outcome per rule file (`some m` raises ExecuteError `m`), and the
findings rows of the session. -/
structure DREnv where
  now : PyStr
  fileStr : PyStr
  durStr : PyStr
  readLines : Option (List PyStr)
  readErr : Nat × PyStr
  prepMsgs : List PyStr
  prepRaise : Option PyStr
  sessRows : List Nat
  engine : PyStr → Option PyStr
  findings : List Row

/-- Result of the manifest-resolution step of `runDR` (lines 138 to 152):
either rule files were determined (`none` for the unbound `rulefiles`
variable after a logged non-missing IOError), or the run returned 1 early
(missing manifest, errno 2), or an IndexError escaped `fix_path`. -/
inductive ResolveOut where
  | ok (rulefiles : Option (List PyStr)) (msgs : List PyStr)
  | earlyReturn (msgs : List PyStr)
  | raisedExc (msgs : List PyStr) (exc : PyStr)
deriving DecidableEq

/-- The manifest-resolution step of `runDR`: a rules argument containing
.txt is read as a manifest; otherwise it is the single rule file. -/
def resolvePhase (env : DREnv) (rules : PyStr) : ResolveOut :=
  if isSubList (str ".txt") rules then
    match env.readLines with
    | some lines =>
      match resolveRuleLines lines (os_path_dirname rules) with
      | some rfs => ResolveOut.ok (some rfs) []
      | none => ResolveOut.raisedExc [] (str "IndexError: string index out of range")
    | none =>
      let ms0 := [str "ERROR reading rules " ++ rules ++ str "."]
      if env.readErr.1 = 2 then ResolveOut.earlyReturn (ms0 ++ [env.readErr.2])
      else ResolveOut.ok none (ms0 ++ [traceback_format_exc])
  else ResolveOut.ok (some [rules]) []

/-- Output of the guarded phase of `runDR` (lines 156 to 190): full
tmp_log so far, messages, stdout, engine invocations, escaping
exception. -/
structure PhaseOut where
  log : List PyStr
  msgs : List PyStr
  out : List PyStr
  executed : List PyStr
  err : Option PyStr

/-- The guarded phase of `runDR`: workspace/session preparation, session
id discovery, the per-rule-file loop, and the findings summary.  An empty
cursor leaves `sess_obj_id` unbound and an absent `rulefiles` is unbound
at the loop header; both raise NameError inside the phase. -/
def tryPhase (env : DREnv) (db loc sess : PyStr) (rfo : Option (List PyStr))
    (log0 : List PyStr) : PhaseOut :=
  match env.prepRaise with
  | some m => ⟨log0, env.prepMsgs, [], [], some m⟩
  | none =>
    match env.sessRows.getLast? with
    | none => ⟨log0, env.prepMsgs, [], [],
        some (str "NameError: name sess_obj_id is not defined")⟩
    | some sid =>
      let sessionidstr := str "Session " ++ natStr sid ++ str " : " ++ sess
      let ms1 := env.prepMsgs ++ [str "  Created session:\n    " ++ sessionidstr]
      let lg1 := log0 ++ [str "Checking " ++ db, str "Errors will be written to " ++ loc]
      match rfo with
      | none => ⟨lg1, ms1, [], [],
          some (str "NameError: name rulefiles is not defined")⟩
      | some rfs =>
        let r := runRulesLoop env.engine rfs
        match r.err with
        | some m => ⟨lg1 ++ r.log, ms1 ++ r.msgs, r.out, r.executed, some m⟩
        | none =>
          ⟨summarise_dr_output (lg1 ++ r.log) env.findings,
            ms1 ++ r.msgs ++ [str "Checks completed, summarising output.\n\n"],
            r.out, r.executed, none⟩

/-- Observable outcome of one `runDR` call. -/
structure RunResult where
  log : List PyStr
  msgs : List PyStr
  out : List PyStr
  executed : List PyStr
  checkedOut : Bool
  checkedIn : Bool
  retval : Option Nat
  raised : Option PyStr

/-- `DRBot.runDR`: log the start time, check out the license, resolve the
rule files (the missing-manifest path returns 1 before the guarded phase
and before the license check-in), run the guarded phase under the
catch-all that logs an escaping exception with its traceback, check the
license back in, and log the final lines. -/
def runDR (env : DREnv) (db loc rules sess : PyStr) : RunResult :=
  let log0 := [str "Start time: " ++ env.now]
  let ms0 := [str "Loading rule file(s) from " ++ rules ++ str "..."]
  match resolvePhase env rules with
  | ResolveOut.earlyReturn ms => ⟨log0, ms0 ++ ms, [], [], true, false, some 1, none⟩
  | ResolveOut.raisedExc ms exc => ⟨log0, ms0 ++ ms, [], [], true, false, none, some exc⟩
  | ResolveOut.ok rfo ms =>
    let ph := tryPhase env db loc sess rfo log0
    let msgs1 := ms0 ++ ms ++ ph.msgs ++
      (match ph.err with
       | none => []
       | some m => [str "Exception during DRBot " ++ m, traceback_format_exc])
    ⟨ph.log ++ [str "Done",
        str "\nTotal " ++ env.fileStr ++ str " duration (h:mm:ss.dd): " ++ env.durStr],
      msgs1, ph.out, ph.executed, true, true, none, none⟩

/-- Exception raised while copying the template gdb in `make_dr_gdb`:
either a `shutil.Error` (carrying its args text) or another exception
(distinguished by its numeric `exc` index 0, with 183 the
already-exists code). -/
inductive CopyErr where
  | shutilErr (argsStr : PyStr)
  | otherErr (code : Nat) (msg : PyStr)
deriving DecidableEq

/-- Outcomes of the external calls of `make_dr_gdb`: whether the template
path is a directory, the copy outcome, whether the workspace path is a
directory after the copy attempt, and whether creating and enabling the
empty gdb raised. -/
structure MakeEnv where
  templIsdir : Bool
  copyErr : Option CopyErr
  isdirAfterCopy : Bool
  createRaises : Bool
deriving DecidableEq

/-- `DRBot.make_dr_gdb`: copy the template when available (copy failures
are logged and fall through), then create and review-enable an empty gdb
when the workspace still does not exist; a creation failure is logged and
returns 1. -/
def make_dr_gdb (loc : PyStr) (env : MakeEnv) : List PyStr × Option Nat :=
  let ms0 := [str "Making DR gdb..."]
  let ms1 := ms0 ++
    (if env.templIsdir then
      (match env.copyErr with
       | none => []
       | some (CopyErr.shutilErr a) =>
         [str "  Couldn\x27t copy DR gdb template (shutil.Error).", str "  errors: " ++ a]
       | some (CopyErr.otherErr code m) =>
         [str "  Couldn\x27t copy DR gdb template (non-shutil.Error)."] ++
           (if code = 183 then [str "  " ++ m]
            else [str "  Exception while copying template gdb: " ++ m]))
     else [])
  if !env.isdirAfterCopy then
    let ms2 := ms1 ++ [str "Creating empty fgdb for DR..."]
    if env.createRaises then
      (ms2 ++ [str "Couldn\x27t create empty gdb for DR workspace."], some 1)
    else (ms2, none)
  else (ms1, none)

/-- Outcomes of the external calls of `clean_dr_ws`: whether the
workspace path is a directory, the `shutil.rmtree` outcome (an exception
carries its `exc` index 0 and index 1 texts), and the `make_dr_gdb`
outcomes. -/
structure CleanEnv where
  isdir : Bool
  rmtreeErr : Option (Nat × PyStr)
  makeEnv : MakeEnv
deriving DecidableEq

/-- Observable outcome of `clean_dr_ws`: the emitted messages, whether
`make_dr_gdb` was invoked, and the return value. -/
structure CleanResult where
  msgs : List PyStr
  madeCall : Bool
  retval : Option Nat
deriving DecidableEq

/-- `DRBot.clean_dr_ws`: when the workspace path is a directory, delete
it; an exception with code 32 (in use) returns 1 early, any other
exception is logged and still falls through to `make_dr_gdb`; when the
path is not a directory, nothing at all happens (the recreation call is
inside the isdir branch). -/
def clean_dr_ws (loc : PyStr) (env : CleanEnv) : CleanResult :=
  let ms0 := [str "Cleaning up DR gdb..."]
  if env.isdir then
    let ms1 := ms0 ++ [str "Deleting DR gdb " ++ loc ++ str "..."]
    match env.rmtreeErr with
    | none =>
      let mk := make_dr_gdb loc env.makeEnv
      ⟨ms1 ++ mk.1, true, none⟩
    | some (code, emsg) =>
      let ms2 := ms1 ++ [str "Failed to delete existing DR gdb."]
      if code = 32 then ⟨ms2 ++ [str "  " ++ emsg], false, some 1⟩
      else
        let ms3 := ms2 ++ [str "Exception during DR workspace cleanup " ++ emsg,
          traceback_format_exc]
        let mk := make_dr_gdb loc env.makeEnv
        ⟨ms3 ++ mk.1, true, none⟩
  else ⟨ms0, false, none⟩

/-- The body of the smtp block of `TmpLog.send_email`: `some e` is an
exception raised by the transport, carrying its repr text. -/
def smtpSend (sendErr : Option PyStr) : Except PyStr Unit :=
  match sendErr with
  | none => Except.ok ()
  | some e => Except.error e

/-- Observable outcome of `TmpLog.send_email`: what was printed to
stdout, whether the mail went out, the exception escaping the call, the
body that was (or would have been) sent, and the tmp_log afterwards. -/
structure MailResult where
  stdout : List PyStr
  sentOk : Bool
  raised : Option PyStr
  body : PyStr
  finalLog : List PyStr

/-- Python `", ".join` over the recipient list. -/
def joinComma : List PyStr → PyStr
  | [] => []
  | [x] => x
  | x :: xs => x ++ str ", " ++ joinComma xs

/-- `TmpLog.send_email`: build the message from the log lines, append the
issue count to the subject when the count flag is non-empty, and send;
every transport exception is caught and printed, never re-raised, and the
log itself is not touched. -/
def send_email (sendErr : Option PyStr) (tmp_log_list : List PyStr)
    (sender : PyStr) (email_lst : List PyStr) (subject count_flag : PyStr) : MailResult :=
  let message := tmp_log_list.foldl (fun acc l => acc ++ l ++ [ '\n' ]) []
  let issue_count := count_lines_with tmp_log_list count_flag
  let subject2 :=
    if count_flag ≠ [] then subject ++ str " - " ++ natStr issue_count ++ str " issues"
    else subject
  let body := str "From: " ++ sender ++ str "\nTo: " ++ joinComma email_lst ++
    str "\nSubject: " ++ subject2 ++ str "\n\n" ++ message ++ str "\n        "
  match smtpSend sendErr with
  | Except.ok _ => ⟨[], true, none, body, tmp_log_list⟩
  | Except.error e => ⟨[str "Couldn\x27t send email.", e], false, none, body, tmp_log_list⟩

/-- Observable outcome of `report_output`: whether the log file was
written and whether the mail was sent. -/
structure ReportOut where
  wrote : Bool
  mailed : Bool
deriving DecidableEq

/-- `DRBot.report_output`: normalise the single-empty-recipient list to
no recipients, write the log to the file when a path was given, turn on
mailing when findings are present, and send when mailing is on and there
is someone to mail.  The initial empty-string `mails` of the caller is
embedded as the empty list (length zero either way). -/
def report_output (log : List PyStr) (logfile : PyStr) (mails : List PyStr)
    (always_send_mail : Bool) : ReportOut :=
  let mails2 := if mails = [[]] then [] else mails
  let wrote := logfile.length > 0
  let always2 :=
    if !always_send_mail && mails2.length > 0 then
      contains_line_with log found_marker
    else always_send_mail
  ⟨wrote, always2 && mails2.length > 0⟩

/-- Observable outcome of `run_from_sysargs`: whether `clean_dr_ws` ran
(and its result), whether `runDR` ran (and its result), the report step
result when reached, and the tmp_log contents. -/
structure BotRun where
  cleanCalled : Bool
  cleanRes : Option CleanResult
  runRes : Option RunResult
  report : Option ReportOut
  log : List PyStr

/-- `DRBot.run_from_sysargs`: with exactly two argv entries and the
second equal to clean, only clean the workspace and log completion;
otherwise take rules, logfile, database and mails from the positional
arguments, derive the session name from the logfile basename, run the
checks and report.  An exception escaping `runDR` propagates before the
report step. -/
def run_from_sysargs (env : DREnv) (cenv : CleanEnv) (argv : List PyStr)
    (def_rules db loc : PyStr) : BotRun :=
  if argv.length = 2 ∧ argv.get? 1 = some (str "clean") then
    let c := clean_dr_ws loc cenv
    ⟨true, some c, none, none, [str "Cleanup completed."]⟩
  else
    let rules := if argv.length > 1 then argv.getD 1 [] else def_rules
    let logfile := if argv.length > 2 then argv.getD 2 [] else []
    let db2 := if argv.length > 3 then argv.getD 3 [] else db
    let mails := if argv.length > 4 then pySplit ',' (argv.getD 4 []) else []
    let sess_name := afterLastBS logfile
    let r := runDR env db2 loc rules sess_name
    match r.raised with
    | some _ => ⟨false, none, some r, none, r.log⟩
    | none =>
      let rep := report_output r.log logfile mails true
      ⟨false, none, some r, some rep, r.log⟩

theorem fix_path_of_len {path : PyStr} (basepath : PyStr) (h : 2 ≤ path.length) :
    fix_path path basepath = some (fixPathVal path basepath) := by
  match path with
  | [] => simp at h
  | [c] => simp at h
  | c0 :: c1 :: rest =>
    simp only [fix_path, fixPathVal]
    split <;> rfl

theorem mapOpt_of_forall {f : α → Option β} {g : α → β} :
    ∀ {l : List α}, (∀ a ∈ l, f a = some (g a)) → mapOpt f l = some (l.map g)
  | [], _ => rfl
  | a :: l, h => by
    have ha := h a (by simp)
    have hl := mapOpt_of_forall (f := f) (g := g) (l := l)
      (fun x hx => h x (by simp [hx]))
    simp [mapOpt, ha, hl]

/-- C5: for paths of length at least two, `fix_path` keeps paths whose
second character is a colon or whose first character is a slash, and
otherwise joins the base directory in front. -/
theorem fix_path_abs_rel (path basepath : PyStr) (h : 2 ≤ path.length) :
    ((path.get? 1 = some ':' ∨ path.head? = some '/') → fix_path path basepath = some path) ∧
    (path.get? 1 ≠ some ':' → path.head? ≠ some '/' →
      fix_path path basepath = some (os_path_join basepath path)) := by
  match path with
  | [] => simp at h
  | [c] => simp at h
  | c0 :: c1 :: rest =>
    constructor
    · intro habs
      simp only [List.get?, List.head?, Option.some.injEq] at habs
      have : ¬ (c1 ≠ ':' ∧ c0 ≠ '/') := by
        rcases habs with h1 | h0
        · exact fun hc => hc.1 h1
        · exact fun hc => hc.2 h0
      simp [fix_path, this]
    · intro h1 h0
      have hc1 : c1 ≠ ':' := fun he => h1 (by simp [List.get?, he])
      have hc0 : c0 ≠ '/' := fun he => h0 (by simp [he])
      simp [fix_path, hc1, hc0]

/-- Witness for `fix_path_abs_rel` at a concrete relative path. -/
theorem fix_path_abs_rel_witness :
    2 ≤ (str "a.rbj").length ∧
    (((str "a.rbj").get? 1 = some ':' ∨ (str "a.rbj").head? = some '/') →
      fix_path (str "a.rbj") (str "rules") = some (str "a.rbj")) ∧
    ((str "a.rbj").get? 1 ≠ some ':' → (str "a.rbj").head? ≠ some '/' →
      fix_path (str "a.rbj") (str "rules") = some (os_path_join (str "rules") (str "a.rbj"))) :=
  ⟨by decide, fix_path_abs_rel (str "a.rbj") (str "rules") (by decide)⟩

/-- C2 counterexample: a manifest with an empty line does not resolve to
the list of its non-comment non-empty lines; the empty line reaches
`path[1]` inside `fix_path` and the resolution fails, instead of the
claimed list. -/
theorem resolveRuleLines_empty_line_fails :
    resolveRuleLines [str "a.rbj", []] (str "rules") = none ∧
    resolveRuleLines [str "a.rbj", []] (str "rules") ≠
      some [os_path_join (str "rules") (str "a.rbj")] := by
  constructor <;> decide

/-- C2 amended: for a manifest whose non-comment lines all have length at
least two, the resolved list is exactly the non-comment lines, each passed
through `fix_path`; comment lines (first character a hash) are excluded,
an empty resulting list is legal, and the per-rule-file loop on an empty
list performs zero engine invocations. -/
theorem resolveRuleLines_spec (lines : List PyStr) (basedir : PyStr)
    (h : ∀ l ∈ lines, l.take 1 ≠ [ '#' ] → 2 ≤ l.length) :
    resolveRuleLines lines basedir =
      some ((lines.filter (fun l => l.take 1 ≠ [ '#' ])).map (fun l => fixPathVal l basedir)) ∧
    (∀ l ∈ lines, l.take 1 = [ '#' ] → l ∉ lines.filter (fun l => l.take 1 ≠ [ '#' ])) ∧
    (∀ engine : PyStr → Option PyStr, runRulesLoop engine [] = ⟨[], [], [], [], none⟩) := by
  refine ⟨?_, ?_, fun engine => rfl⟩
  · unfold resolveRuleLines
    apply mapOpt_of_forall
    intro a ha
    have hmem := List.mem_filter.mp ha
    have h2 : 2 ≤ a.length := h a hmem.1 (by simpa using hmem.2)
    exact fix_path_of_len basedir h2
  · intro l _ hcomment hmem
    have := (List.mem_filter.mp hmem).2
    simp [hcomment] at this

/-- Witness for `resolveRuleLines_spec` on a concrete manifest holding a
relative line, a comment line, and a drive-absolute line. -/
theorem resolveRuleLines_spec_witness :
    (∀ l ∈ [str "a.rbj", str "# note", str "c:m.rbj"], l.take 1 ≠ [ '#' ] → 2 ≤ l.length) ∧
    (resolveRuleLines [str "a.rbj", str "# note", str "c:m.rbj"] (str "rules") =
      some (([str "a.rbj", str "# note", str "c:m.rbj"].filter
          (fun l => l.take 1 ≠ [ '#' ])).map (fun l => fixPathVal l (str "rules"))) ∧
    (∀ l ∈ [str "a.rbj", str "# note", str "c:m.rbj"], l.take 1 = [ '#' ] →
      l ∉ [str "a.rbj", str "# note", str "c:m.rbj"].filter (fun l => l.take 1 ≠ [ '#' ])) ∧
    (∀ engine : PyStr → Option PyStr, runRulesLoop engine [] = ⟨[], [], [], [], none⟩)) :=
  ⟨by decide, resolveRuleLines_spec [str "a.rbj", str "# note", str "c:m.rbj"]
    (str "rules") (by decide)⟩

/-- C6 counterexample: with zero findings rows but a log already holding a
line that contains the found marker (the code 732 warning), no
no-errors line is emitted, contradicting the claim that it is emitted
regardless of the existing log contents. -/
theorem summarise_no_errors_suppressed :
    summarise_dr_output [str "Found execution error: File a.rbj not found."] [] =
      [str "Found execution error: File a.rbj not found."] ∧
    str "No errors found." ∉
      summarise_dr_output [str "Found execution error: File a.rbj not found."] [] := by
  constructor <;> decide

/-- C6 amended: with zero findings rows, `summarise_dr_output` appends
exactly one no-errors line when no line of the existing log contains the
found marker, and appends nothing otherwise. -/
theorem summarise_no_errors_spec (log : List PyStr) :
    summarise_dr_output log [] =
      if count_lines_with log found_marker = 0 then log ++ [str "No errors found."] else log := by
  unfold summarise_dr_output sumLoop
  simp

theorem strTotal_eq : str "Total " = 'T' :: 'o' :: 't' :: 'a' :: 'l' :: ' ' :: [] := rfl

theorem strFoundSp_eq : str "Found " = 'F' :: 'o' :: 'u' :: 'n' :: 'd' :: ' ' :: [] := rfl

theorem found_marker_eq : found_marker = 'F' :: 'o' :: 'u' :: 'n' :: 'd' :: [] := rfl

theorem isTotal_totalLine (c : Nat) (t : PyStr) : isTotalL (totalLine c t) = true := by
  simp [isTotalL, totalLine, strTotal_eq, str, List.isPrefixOf]

theorem isFound_totalLine (c : Nat) (t : PyStr) : isFoundL (totalLine c t) = false := by
  have h : (('F' : Char) == 'T') = false := by decide
  simp [isFoundL, totalLine, strTotal_eq, strFoundSp_eq, List.isPrefixOf, h]

theorem isTotal_foundLine (r : Row) : isTotalL (foundLine r) = false := by
  have h : (('T' : Char) == 'F') = false := by decide
  simp [isTotalL, foundLine, found_marker_eq, strTotal_eq, str, List.isPrefixOf, h]

theorem isFound_foundLine (r : Row) : isFoundL (foundLine r) = true := by
  simp [isFoundL, foundLine, found_marker_eq, strFoundSp_eq, str, List.isPrefixOf]

theorem consRun_merge (t : PyStr) (a b : Nat) (L : List (PyStr × Nat)) :
    consRun (t, a) (consRun (t, b) L) = consRun (t, a + b) L := by
  match L with
  | [] => simp [consRun, Nat.add_assoc]
  | q :: qs =>
    by_cases hq : q.1 = t
    · simp [consRun, hq, Nat.add_assoc]
    · simp [consRun, hq]

theorem consRun_shape (p : PyStr × Nat) (L : List (PyStr × Nat)) :
    ∃ n M, consRun p L = (p.1, n) :: M := by
  match L with
  | [] => exact ⟨p.2, [], rfl⟩
  | q :: qs =>
    by_cases hq : q.1 = p.1
    · exact ⟨p.2 + q.2, qs, by simp [consRun, hq]⟩
    · exact ⟨p.2, q :: qs, by simp [consRun, hq]⟩

theorem runsTotals_cons (t : PyStr) (n : Nat) (L : List (PyStr × Nat)) :
    runsTotals ((t, n) :: L) =
      if t = [] then runsTotals L else totalLine n t :: runsTotals L := by
  by_cases ht : t = [] <;> simp [runsTotals, List.filterMap_cons, ht]

theorem runsTotals_nil_run (c : Nat) (L : List (PyStr × Nat)) :
    runsTotals (consRun ([], c) L) = runsTotals L := by
  match L with
  | [] => simp [consRun, runsTotals]
  | (t, n) :: qs =>
    by_cases hq : t = []
    · subst hq; simp [consRun, runsTotals_cons]
    · simp [consRun, hq, runsTotals_cons]

theorem titleRuns_eq_nil : ∀ {rs : List Row}, titleRuns rs = [] → rs = []
  | [], _ => rfl
  | r :: rs, h => by
    obtain ⟨n, M, hM⟩ := consRun_shape (r.title, 1) (titleRuns rs)
    rw [titleRuns, hM] at h
    simp at h

theorem sumLoop_founds : ∀ (rows : List Row) (prev : PyStr) (cnt : Nat),
    (sumLoop prev cnt rows).filter isFoundL = rows.map foundLine
  | [], prev, cnt => by
    by_cases hp : prev = [] <;>
      simp [sumLoop, hp, List.filter_cons, isFound_totalLine]
  | r :: rs, prev, cnt => by
    by_cases hrp : r.title = prev
    · simp [sumLoop, hrp, List.filter_cons, isFound_foundLine,
        sumLoop_founds rs prev (cnt + 1)]
    · by_cases hp : prev = []
      · subst hp
        simp [sumLoop, hrp, List.filter_cons, isFound_foundLine, isFound_totalLine,
          sumLoop_founds rs r.title 1]
      · simp [sumLoop, hrp, hp, List.filter_cons, isFound_foundLine, isFound_totalLine,
          sumLoop_founds rs r.title 1]

theorem sumLoop_totals : ∀ (rows : List Row) (prev : PyStr) (cnt : Nat),
    (sumLoop prev cnt rows).filter isTotalL =
      runsTotals (if prev = [] then titleRuns rows else consRun (prev, cnt) (titleRuns rows))
  | [], prev, cnt => by
    by_cases hp : prev = []
    · simp [sumLoop, hp, titleRuns, runsTotals]
    · simp [sumLoop, hp, List.filter_cons, isTotal_totalLine, titleRuns, consRun,
        runsTotals_cons, runsTotals]
  | r :: rs, prev, cnt => by
    by_cases hrp : r.title = prev
    · by_cases hp : prev = []
      · have ih := sumLoop_totals rs prev (cnt + 1)
        rw [if_pos hp] at ih
        have htitle : r.title = [] := hrp.trans hp
        simp only [sumLoop, if_pos hrp, List.filter_cons, isTotal_foundLine,
          Bool.false_eq_true, if_false, if_pos hp, titleRuns]
        rw [ih, htitle, runsTotals_nil_run]
      · have ih := sumLoop_totals rs prev (cnt + 1)
        rw [if_neg hp] at ih
        simp only [sumLoop, if_pos hrp, List.filter_cons, isTotal_foundLine,
          Bool.false_eq_true, if_false, if_neg hp, titleRuns]
        rw [ih, hrp, consRun_merge]
    · by_cases hp : prev = []
      · have ih := sumLoop_totals rs r.title 1
        have ht : r.title ≠ [] := fun he => hrp (he.trans hp.symm)
        rw [if_neg ht] at ih
        simp only [sumLoop, if_neg hrp, if_pos hp, List.nil_append, List.filter_cons,
          isTotal_foundLine, Bool.false_eq_true, if_false, titleRuns]
        rw [ih]
      · have ih := sumLoop_totals rs r.title 1
        obtain ⟨n, M, hM⟩ := consRun_shape (r.title, 1) (titleRuns rs)
        have hcons : consRun (prev, cnt) (consRun (r.title, 1) (titleRuns rs)) =
            (prev, cnt) :: (r.title, n) :: M := by
          rw [hM]; simp [consRun, hrp]
        simp only [sumLoop, if_neg hrp, if_neg hp, List.cons_append, List.nil_append,
          List.filter_cons, isTotal_totalLine, if_true, isTotal_foundLine,
          Bool.false_eq_true, if_false, titleRuns]
        rw [ih, hcons, runsTotals_cons, if_neg hp]
        by_cases ht : r.title = []
        · rw [if_pos ht, ← hM, ht, runsTotals_nil_run]
        · rw [if_neg ht, ← hM]

theorem strLt_trans : ∀ {a b c : PyStr}, strLt a b → strLt b c → strLt a c
  | [], [], _, h1, _ => by simp [strLt, strLtB] at h1
  | [], _ :: _, [], _, h2 => by simp [strLt, strLtB] at h2
  | [], _ :: _, _ :: _, _, _ => by simp [strLt, strLtB]
  | _ :: _, [], _, h1, _ => by simp [strLt, strLtB] at h1
  | _ :: _, _ :: _, [], _, h2 => by simp [strLt, strLtB] at h2
  | a :: as, b :: bs, c :: cs, h1, h2 => by
    simp only [strLt, strLtB] at h1 h2 ⊢
    by_cases hab : a < b
    · by_cases hbc : b < c
      · simp [lt_trans hab hbc]
      · by_cases hbc2 : b = c
        · simp [hbc2 ▸ hab]
        · simp [hbc, hbc2] at h2
    · by_cases hab2 : a = b
      · subst hab2
        by_cases hbc : a < c
        · simp [hbc]
        · by_cases hbc2 : a = c
          · subst hbc2
            have hlt : ¬ a < a := lt_irrefl a
            simp only [hlt, if_false, if_pos rfl] at h1 h2 ⊢
            exact strLt_trans (a := as) (b := bs) (c := cs) h1 h2
          · simp [hbc, hbc2] at h2
      · simp [hab, hab2] at h1

theorem strLt_irrefl : ∀ (a : PyStr), ¬ strLt a a
  | [] => by simp [strLt, strLtB]
  | a :: as => fun h => by
    have hlt : ¬ a < a := lt_irrefl a
    have h2 : strLt as as := by simpa [strLt, strLtB, hlt] using h
    exact strLt_irrefl as h2

theorem strLt_ne {a b : PyStr} (h : strLt a b) : a ≠ b := fun he =>
  strLt_irrefl b (he ▸ h)

theorem rowLe_title {a b : Row} (h : rowLe a b) : strLt a.title b.title ∨ a.title = b.title := by
  rcases h with h | ⟨h, _⟩
  · exact Or.inl h
  · exact Or.inr h

theorem rowLe_title_lt {a b : Row} (h : rowLe a b) (hne : a.title ≠ b.title) :
    strLt a.title b.title := by
  rcases rowLe_title h with h | h
  · exact h
  · exact absurd h hne

theorem strLt_of_lt_of_rowle {t : PyStr} {a b : Row} (h1 : strLt t a.title)
    (h2 : rowLe a b) : strLt t b.title := by
  rcases rowLe_title h2 with h | h
  · exact strLt_trans h1 h
  · exact h ▸ h1

theorem titleRuns_head : ∀ (r : Row) (rs : List Row),
    ∃ n M, titleRuns (r :: rs) = (r.title, n) :: M := by
  intro r rs
  obtain ⟨n, M, hM⟩ := consRun_shape (r.title, 1) (titleRuns rs)
  exact ⟨n, M, hM⟩

theorem titleRuns_strict : ∀ (rows : List Row), rows.Pairwise rowLe →
    ((titleRuns rows).map Prod.fst).Pairwise strLt
  | [], _ => by simp [titleRuns]
  | r :: rs, h => by
    rw [List.pairwise_cons] at h
    obtain ⟨h1, h2⟩ := h
    have ih := titleRuns_strict rs h2
    match hrs : rs with
    | [] => simp [titleRuns, consRun]
    | x :: xs =>
      obtain ⟨n, M, hM⟩ := titleRuns_head x xs
      rw [titleRuns, hM]
      by_cases ht : x.title = r.title
      · rw [consRun, if_pos ht]
        rw [hM] at ih
        simpa [ht] using ih
      · rw [consRun, if_neg ht]
        rw [hM] at ih
        have hrx : strLt r.title x.title :=
          rowLe_title_lt (h1 x (by simp)) (fun he => ht he.symm)
        simp only [List.map_cons, List.pairwise_cons] at ih ⊢
        refine ⟨?_, ih⟩
        intro u hu
        rcases List.mem_cons.mp hu with hu1 | hu1
        · exact hu1 ▸ hrx
        · exact strLt_trans hrx (ih.1 u hu1)

theorem countTitle_cons (r : Row) (rs : List Row) (t : PyStr) :
    countTitle (r :: rs) t =
      if r.title = t then countTitle rs t + 1 else countTitle rs t := by
  by_cases h : r.title = t <;> simp [countTitle, List.filter_cons, h]

theorem countTitle_eq_zero {rows : List Row} {t : PyStr}
    (h : ∀ x ∈ rows, x.title ≠ t) : countTitle rows t = 0 := by
  unfold countTitle
  rw [List.length_eq_zero, List.filter_eq_nil_iff]
  intro a ha
  simpa using h a ha

theorem titleRuns_counts : ∀ (rows : List Row), rows.Pairwise rowLe →
    ∀ p ∈ titleRuns rows, p.2 = countTitle rows p.1
  | [], _, p, hp => by simp [titleRuns] at hp
  | r :: rs, h, p, hp => by
    rw [List.pairwise_cons] at h
    obtain ⟨h1, h2⟩ := h
    have ih := titleRuns_counts rs h2
    have hstrict := titleRuns_strict rs h2
    rcases rs with _ | ⟨x, xs⟩
    · simp [titleRuns, consRun] at hp
      subst hp
      simp [countTitle, List.filter_cons]
    · obtain ⟨n, M, hM⟩ := titleRuns_head x xs
      rw [hM] at ih hstrict
      rw [titleRuns, hM] at hp
      simp only [List.map_cons, List.pairwise_cons] at hstrict
      by_cases ht : x.title = r.title
      · rw [consRun, if_pos ht] at hp
        rcases List.mem_cons.mp hp with hp1 | hp1
        · have hn : n = countTitle (x :: xs) r.title := by
            have := ih (x.title, n) (by simp)
            simpa [ht] using this
          subst hp1
          rw [countTitle_cons, if_pos rfl, ← hn]
          omega
        · have hual := ih p (by simp [hp1])
          have hne : r.title ≠ p.1 := by
            have hmem : p.1 ∈ M.map Prod.fst := List.mem_map_of_mem Prod.fst hp1
            have := hstrict.1 p.1 hmem
            rw [ht] at this
            exact strLt_ne this
          rw [countTitle_cons, if_neg hne]
          exact hual
      · have hrx : strLt r.title x.title :=
          rowLe_title_lt (h1 x (by simp)) (fun he => ht he.symm)
        have hall : ∀ z ∈ x :: xs, strLt r.title z.title := by
          intro z hz
          rcases List.mem_cons.mp hz with hz1 | hz1
          · exact hz1 ▸ hrx
          · have hx1 := (List.pairwise_cons.mp h2).1
            exact strLt_of_lt_of_rowle hrx (hx1 z hz1)
        rw [consRun, if_neg ht] at hp
        rcases List.mem_cons.mp hp with hp1 | hp1
        · subst hp1
          rw [countTitle_cons, if_pos rfl]
          rw [countTitle_eq_zero (fun z hz => (strLt_ne (hall z hz)).symm)]
        · rcases List.mem_cons.mp hp1 with hp2 | hp2
          · subst hp2
            rw [countTitle_cons, if_neg (fun he => ht he.symm)]
            exact ih (x.title, n) (by simp)
          · have hual := ih p (by simp [hp2])
            have hne : r.title ≠ p.1 := by
              have hmem : p.1 ∈ M.map Prod.fst := List.mem_map_of_mem Prod.fst hp2
              exact strLt_ne (strLt_trans hrx (hstrict.1 p.1 hmem))
            rw [countTitle_cons, if_neg hne]
            exact hual

/-- C1 (amended): for findings rows pre-sorted by (check title, record
id), the loop of `summarise_dr_output` emits one found line per row in
input order; it emits exactly one subtotal line per run of consecutive
equal titles whose title is non-empty, carrying the run length, and under
the sorting the run titles are pairwise distinct and each run length is
the total number of rows with that title; rows whose check title is the
empty string (the loop sentinel) receive no subtotal line.  In each found
line the subtype segment is omitted when the subtype is empty and is a
comma plus the first six subtype characters otherwise. -/
theorem summarise_grouping (rows : List Row) (hs : rows.Pairwise rowLe) :
    (sumLoop [] 0 rows).filter isFoundL = rows.map foundLine ∧
    (sumLoop [] 0 rows).filter isTotalL = runsTotals (titleRuns rows) ∧
    ((titleRuns rows).map Prod.fst).Pairwise (fun a b => a ≠ b) ∧
    (∀ p ∈ titleRuns rows, p.2 = countTitle rows p.1) ∧
    (∀ r : Row, r.fcs = [] →
      foundLine r = str "Found " ++ r.fc ++ str ", OBJECTID=" ++ natStr r.objectid ++
        str ": " ++ r.title ++ str " (" ++ r.notes ++ str ")") ∧
    (∀ r : Row, r.fcs ≠ [] →
      foundLine r = str "Found " ++ r.fc ++ str ", " ++ r.fcs.take 6 ++ str ", OBJECTID=" ++
        natStr r.objectid ++ str ": " ++ r.title ++ str " (" ++ r.notes ++ str ")") := by
  refine ⟨sumLoop_founds rows [] 0, ?_, ?_, titleRuns_counts rows hs, ?_, ?_⟩
  · have := sumLoop_totals rows [] 0
    rwa [if_pos rfl] at this
  · exact (titleRuns_strict rows hs).imp (fun h => strLt_ne h)
  · intro r h
    simp [foundLine, h, encode_if_unicode, found_marker_eq, strFoundSp_eq, str]
  · intro r h
    simp [foundLine, h, List.length_pos, encode_if_unicode, found_marker_eq, strFoundSp_eq, str]

/-- Witness for `summarise_grouping` on three sorted rows spanning two
titles and both subtype shapes. -/
theorem summarise_grouping_witness :
    ([⟨str "Alpha", str "tab1", str "", 1, str "n1"⟩,
      ⟨str "Alpha", str "tab1", str "subtypelong", 2, str "n2"⟩,
      ⟨str "Beta", str "tab2", str "st", 7, str "n3"⟩] : List Row).Pairwise rowLe ∧
    ((sumLoop [] 0 [⟨str "Alpha", str "tab1", str "", 1, str "n1"⟩,
      ⟨str "Alpha", str "tab1", str "subtypelong", 2, str "n2"⟩,
      ⟨str "Beta", str "tab2", str "st", 7, str "n3"⟩]).filter isFoundL =
      ([⟨str "Alpha", str "tab1", str "", 1, str "n1"⟩,
      ⟨str "Alpha", str "tab1", str "subtypelong", 2, str "n2"⟩,
      ⟨str "Beta", str "tab2", str "st", 7, str "n3"⟩] : List Row).map foundLine ∧
    (sumLoop [] 0 [⟨str "Alpha", str "tab1", str "", 1, str "n1"⟩,
      ⟨str "Alpha", str "tab1", str "subtypelong", 2, str "n2"⟩,
      ⟨str "Beta", str "tab2", str "st", 7, str "n3"⟩]).filter isTotalL =
      runsTotals (titleRuns [⟨str "Alpha", str "tab1", str "", 1, str "n1"⟩,
      ⟨str "Alpha", str "tab1", str "subtypelong", 2, str "n2"⟩,
      ⟨str "Beta", str "tab2", str "st", 7, str "n3"⟩]) ∧
    ((titleRuns [⟨str "Alpha", str "tab1", str "", 1, str "n1"⟩,
      ⟨str "Alpha", str "tab1", str "subtypelong", 2, str "n2"⟩,
      ⟨str "Beta", str "tab2", str "st", 7, str "n3"⟩]).map Prod.fst).Pairwise
        (fun a b => a ≠ b) ∧
    (∀ p ∈ titleRuns [⟨str "Alpha", str "tab1", str "", 1, str "n1"⟩,
      ⟨str "Alpha", str "tab1", str "subtypelong", 2, str "n2"⟩,
      ⟨str "Beta", str "tab2", str "st", 7, str "n3"⟩],
        p.2 = countTitle [⟨str "Alpha", str "tab1", str "", 1, str "n1"⟩,
      ⟨str "Alpha", str "tab1", str "subtypelong", 2, str "n2"⟩,
      ⟨str "Beta", str "tab2", str "st", 7, str "n3"⟩] p.1) ∧
    (∀ r : Row, r.fcs = [] →
      foundLine r = str "Found " ++ r.fc ++ str ", OBJECTID=" ++ natStr r.objectid ++
        str ": " ++ r.title ++ str " (" ++ r.notes ++ str ")") ∧
    (∀ r : Row, r.fcs ≠ [] →
      foundLine r = str "Found " ++ r.fc ++ str ", " ++ r.fcs.take 6 ++ str ", OBJECTID=" ++
        natStr r.objectid ++ str ": " ++ r.title ++ str " (" ++ r.notes ++ str ")")) :=
  ⟨by decide, summarise_grouping _ (by decide)⟩

/-- C1 counterexample: a single row whose check title is the empty string
gets a found line but no subtotal line at all, although the claim demands
exactly one subtotal line for each distinct title of the input. -/
theorem summarise_empty_title_no_total :
    (sumLoop [] 0 [⟨[], str "T", [], 1, str "n"⟩]).filter isTotalL = [] ∧
    sumLoop [] 0 [⟨[], str "T", [], 1, str "n"⟩] =
      [foundLine ⟨[], str "T", [], 1, str "n"⟩] := by
  constructor <;> decide

theorem strERROR_eq : str "ERROR " = 'E' :: 'R' :: 'R' :: 'O' :: 'R' :: ' ' :: [] := rfl

theorem isPrefixOf_append_self (l r : List Char) : l.isPrefixOf (l ++ r) = true := by
  rw [List.isPrefixOf_iff_prefix]
  exact List.prefix_append l r

theorem matchErrorAt_nil : matchErrorAt [] = none := rfl

theorem takeWhile_all_append {p : Char → Bool} {zs : List Char} (hz : ∀ c ∈ zs, p c = true)
    {d : Char} (hd : p d = false) (Y : List Char) :
    (zs ++ d :: Y).takeWhile p = zs ∧ (zs ++ d :: Y).dropWhile p = d :: Y := by
  induction zs with
  | nil => simp [List.takeWhile_cons, List.dropWhile_cons, hd]
  | cons a as ih =>
    have ha := hz a (by simp)
    have ih2 := ih (fun c hc => hz c (by simp [hc]))
    simp [List.takeWhile_cons, List.dropWhile_cons, ha, ih2.1, ih2.2]

theorem matchErrorAt_sound {cs : List Char} {n : Nat} (h : matchErrorAt cs = some n) :
    hasErrCodeAt cs := by
  simp only [matchErrorAt] at h
  by_cases hpre : (str "ERROR ").isPrefixOf cs
  · rw [if_pos hpre] at h
    obtain ⟨rest, hrest⟩ := List.isPrefixOf_iff_prefix.mp hpre
    have hdrop : cs.drop 6 = rest := by
      rw [← hrest, strERROR_eq]
      rfl
    rw [hdrop] at h
    by_cases hz : rest.takeWhile (fun c => c = '0') = []
    · simp [hz] at h
    · rw [if_neg hz] at h
      cases hafter : rest.dropWhile (fun c => c = '0') with
      | nil => rw [hafter] at h; exact absurd h (by simp)
      | cons d ds2 =>
        rw [hafter] at h
        dsimp only at h
        by_cases hd : '1' ≤ d ∧ d ≤ '9'
        · rw [if_pos hd] at h
          cases hdw : ds2.dropWhile isDigitCh with
          | nil => rw [hdw] at h; exact absurd h (by simp)
          | cons c2 rest3 =>
            rw [hdw] at h
            dsimp only at h
            by_cases hc2 : c2 = ':'
            · subst hc2
              have h1 : rest.takeWhile (fun c => c = '0') ++
                  rest.dropWhile (fun c => c = '0') = rest :=
                List.takeWhile_append_dropWhile _ _
              have h2 : ds2.takeWhile isDigitCh ++ ds2.dropWhile isDigitCh = ds2 :=
                List.takeWhile_append_dropWhile _ _
              rw [hafter] at h1
              rw [hdw] at h2
              refine ⟨rest.takeWhile (fun c => c = '0'), d, ds2.takeWhile isDigitCh,
                rest3, ?_, hz, ?_, hd, ?_⟩
              · rw [← hrest]
                conv_lhs => rw [← h1, ← h2]
                simp [List.append_assoc]
              · intro c hc
                simpa using List.mem_takeWhile_imp hc
              · intro c hc
                exact List.mem_takeWhile_imp hc
            · rw [if_neg hc2] at h
              exact absurd h (by simp)
        · rw [if_neg hd] at h
          exact absurd h (by simp)
  · rw [if_neg hpre] at h
    exact absurd h (by simp)

theorem matchErrorAt_complete {zs : List Char} {d : Char} {ds post : List Char}
    (hz : zs ≠ []) (hz0 : ∀ c ∈ zs, c = '0') (hd : '1' ≤ d ∧ d ≤ '9')
    (hds : ∀ c ∈ ds, isDigitCh c = true) :
    matchErrorAt (str "ERROR " ++ zs ++ (d :: ds) ++ (':' :: post)) =
      some (digitsVal (d :: ds)) := by
  have hd0 : d ≠ '0' := by
    intro he
    subst he
    exact absurd hd.1 (by decide)
  have hzs : (∀ c ∈ zs, (fun c => decide (c = '0')) c = true) := by
    intro c hc
    simp [hz0 c hc]
  have hdf : (fun c => decide (c = '0')) d = false := by simp [hd0]
  have hcolon : isDigitCh ':' = false := by decide
  have hTD := takeWhile_all_append hzs hdf (ds ++ ':' :: post)
  have hTD2 := takeWhile_all_append hds hcolon post
  have harg : str "ERROR " ++ zs ++ (d :: ds) ++ (':' :: post) =
      str "ERROR " ++ (zs ++ (d :: (ds ++ ':' :: post))) := by
    simp [List.append_assoc]
  rw [harg]
  simp only [matchErrorAt, isPrefixOf_append_self, if_true]
  have hdrop : (str "ERROR " ++ (zs ++ (d :: (ds ++ ':' :: post)))).drop 6 =
      zs ++ (d :: (ds ++ ':' :: post)) := by
    rw [strERROR_eq]
    rfl
  rw [hdrop, hTD.1, hTD.2]
  rw [if_neg hz]
  simp only [hTD2.1, hTD2.2, if_pos hd]
  simp

theorem searchError_isSome_append : ∀ (pre suf : List Char),
    (matchErrorAt suf).isSome → (searchError (pre ++ suf)).isSome
  | [], suf, h => by
    match suf with
    | [] => rw [matchErrorAt_nil] at h; simp at h
    | c :: cs =>
      obtain ⟨n, hn⟩ := Option.isSome_iff_exists.mp h
      simp [searchError, hn]
  | c :: pre, suf, h => by
    rw [List.cons_append, searchError]
    cases hm : matchErrorAt (c :: (pre ++ suf)) with
    | some n => simp
    | none => simpa using searchError_isSome_append pre suf h

theorem searchError_sound : ∀ {cs : List Char} {n : Nat}, searchError cs = some n →
    ∃ pre suf, cs = pre ++ suf ∧ matchErrorAt suf = some n
  | [], n, h => by simp [searchError] at h
  | c :: cs, n, h => by
    rw [searchError] at h
    cases hm : matchErrorAt (c :: cs) with
    | some m =>
      rw [hm] at h
      simp only [Option.some.injEq] at h
      exact ⟨[], c :: cs, by simp, by rw [hm, h]⟩
    | none =>
      rw [hm] at h
      obtain ⟨pre, suf, he, hm2⟩ := searchError_sound h
      exact ⟨c :: pre, suf, by simp [he], hm2⟩

theorem searchError_head_match {cs : List Char} {n : Nat}
    (h : matchErrorAt cs = some n) : searchError cs = some n := by
  match cs with
  | [] => rw [matchErrorAt_nil] at h; simp at h
  | c :: cs2 => simp [searchError, h]

/-- C10: `parse_arc_error` returns the numeric code exactly when the
message contains a substring of the shape ERROR, one or more zeros, a
positive number, a colon; on any message without such a substring it
re-raises the original error.  At a match starting the message the
returned value is the captured digits with the leading zeros stripped. -/
theorem parse_arc_error_spec (msg : PyStr) :
    ((∃ n, parse_arc_error msg = Except.ok n) ↔ hasErrCode msg) ∧
    (¬ hasErrCode msg → parse_arc_error msg = Except.error msg) ∧
    (∀ zs d ds post, msg = str "ERROR " ++ zs ++ (d :: ds) ++ (':' :: post) →
      zs ≠ [] → (∀ c ∈ zs, c = '0') → ('1' ≤ d ∧ d ≤ '9') →
      (∀ c ∈ ds, isDigitCh c = true) →
      parse_arc_error msg = Except.ok (digitsVal (d :: ds))) := by
  have hiff : (∃ n, parse_arc_error msg = Except.ok n) ↔ hasErrCode msg := by
    constructor
    · rintro ⟨n, hn⟩
      unfold parse_arc_error at hn
      cases hs : searchError msg with
      | none => rw [hs] at hn; exact absurd hn (by simp)
      | some m =>
        obtain ⟨pre, suf, he, hm⟩ := searchError_sound hs
        exact ⟨pre, suf, he, matchErrorAt_sound hm⟩
    · rintro ⟨pre, suf, he, zs, d, ds, post, hsuf, hz, hz0, hd, hds⟩
      have hm := @matchErrorAt_complete zs d ds post hz hz0 hd hds
      rw [← hsuf] at hm
      have hsome : (searchError msg).isSome := by
        rw [he]
        exact searchError_isSome_append pre suf (by simp [hm])
      obtain ⟨n, hn⟩ := Option.isSome_iff_exists.mp hsome
      exact ⟨n, by unfold parse_arc_error; rw [hn]⟩
  refine ⟨hiff, ?_, ?_⟩
  · intro hno
    unfold parse_arc_error
    cases hs : searchError msg with
    | none => rfl
    | some m =>
      exact absurd (hiff.mp ⟨m, by unfold parse_arc_error; rw [hs]⟩) hno
  · intro zs d ds post hmsg hz hz0 hd hds
    have hm := @matchErrorAt_complete zs d ds post hz hz0 hd hds
    rw [← hmsg] at hm
    unfold parse_arc_error
    rw [searchError_head_match hm]

/-- Witness for `parse_arc_error_spec`: the characteristic substring is
recognised in a concrete engine message. -/
theorem parse_arc_error_spec_witness :
    hasErrCode (str "ERROR 000732: cannot open rule file") :=
  (parse_arc_error_spec (str "ERROR 000732: cannot open rule file")).1.mp ⟨732, rfl⟩

/-- C3: in the per-rule-file loop, an engine error whose parsed code is
732 is logged as a warning and the remaining rule files still run, while
an engine error with any other parsed code escapes the loop, the
remaining files are not executed, and the escaping exception is seen only
by the catch-all of `runDR`, which logs it and does not propagate it. -/
theorem engine_error_732_policy (engine : PyStr → Option PyStr) (rf : PyStr)
    (rest : List PyStr) (em : PyStr) (h : engine rf = some em) :
    (parse_arc_error em = Except.ok 732 →
      (runRulesLoop engine (rf :: rest)).executed =
        rf :: (runRulesLoop engine rest).executed ∧
      notFoundWarning rf ∈ (runRulesLoop engine (rf :: rest)).log ∧
      (runRulesLoop engine (rf :: rest)).err = (runRulesLoop engine rest).err) ∧
    (∀ c, parse_arc_error em = Except.ok c → c ≠ 732 →
      (runRulesLoop engine (rf :: rest)).executed = [rf] ∧
      (runRulesLoop engine (rf :: rest)).err = some em) ∧
    (∀ (env : DREnv) (db loc rules sess : PyStr) (rfo : Option (List PyStr))
      (ms : List PyStr) (m : PyStr),
      resolvePhase env rules = ResolveOut.ok rfo ms →
      (tryPhase env db loc sess rfo [str "Start time: " ++ env.now]).err = some m →
      (str "Exception during DRBot " ++ m) ∈ (runDR env db loc rules sess).msgs ∧
      (runDR env db loc rules sess).raised = none ∧
      (runDR env db loc rules sess).retval = none) := by
  refine ⟨?_, ?_, ?_⟩
  · intro h732
    simp [runRulesLoop, h, h732]
  · intro c hc hne
    have hni : ¬ parse_arc_error em = Except.ok 732 := by
      rw [hc]
      simp [hne]
    simp [runRulesLoop, h, hni]
  · intro env db loc rules sess rfo ms m hres herr
    unfold runDR
    rw [hres]
    simp [herr]

/-- Witness for `engine_error_732_policy`: a concrete engine raising code
732 on the first file and a clean second file. -/
theorem engine_error_732_policy_witness :
    ((fun rf => if rf = str "a.rbj" then some (str "ERROR 000732: missing") else none)
        (str "a.rbj") = some (str "ERROR 000732: missing")) ∧
    ((parse_arc_error (str "ERROR 000732: missing") = Except.ok 732 →
      (runRulesLoop
          (fun rf => if rf = str "a.rbj" then some (str "ERROR 000732: missing") else none)
          (str "a.rbj" :: [str "b.rbj"])).executed =
        str "a.rbj" :: (runRulesLoop
          (fun rf => if rf = str "a.rbj" then some (str "ERROR 000732: missing") else none)
          [str "b.rbj"]).executed ∧
      notFoundWarning (str "a.rbj") ∈ (runRulesLoop
          (fun rf => if rf = str "a.rbj" then some (str "ERROR 000732: missing") else none)
          (str "a.rbj" :: [str "b.rbj"])).log ∧
      (runRulesLoop
          (fun rf => if rf = str "a.rbj" then some (str "ERROR 000732: missing") else none)
          (str "a.rbj" :: [str "b.rbj"])).err = (runRulesLoop
          (fun rf => if rf = str "a.rbj" then some (str "ERROR 000732: missing") else none)
          [str "b.rbj"]).err) ∧
    (∀ c, parse_arc_error (str "ERROR 000732: missing") = Except.ok c → c ≠ 732 →
      (runRulesLoop
          (fun rf => if rf = str "a.rbj" then some (str "ERROR 000732: missing") else none)
          (str "a.rbj" :: [str "b.rbj"])).executed = [str "a.rbj"] ∧
      (runRulesLoop
          (fun rf => if rf = str "a.rbj" then some (str "ERROR 000732: missing") else none)
          (str "a.rbj" :: [str "b.rbj"])).err = some (str "ERROR 000732: missing")) ∧
    (∀ (env : DREnv) (db loc rules sess : PyStr) (rfo : Option (List PyStr))
      (ms : List PyStr) (m : PyStr),
      resolvePhase env rules = ResolveOut.ok rfo ms →
      (tryPhase env db loc sess rfo [str "Start time: " ++ env.now]).err = some m →
      (str "Exception during DRBot " ++ m) ∈ (runDR env db loc rules sess).msgs ∧
      (runDR env db loc rules sess).raised = none ∧
      (runDR env db loc rules sess).retval = none)) :=
  ⟨by decide,
    engine_error_732_policy
      (fun rf => if rf = str "a.rbj" then some (str "ERROR 000732: missing") else none)
      (str "a.rbj") [str "b.rbj"] (str "ERROR 000732: missing") (by decide)⟩

/-- C4 (amended): the license is checked out in every `runDR` execution,
and in every execution that neither returns the missing-manifest code nor
raises out of manifest resolution, the check-in step executes, in
particular whenever an exception escaped the guarded
rule-execution-and-summarise phase (the catch-all logs it instead of
propagating). -/
theorem runDR_checkin (env : DREnv) (db loc rules sess : PyStr)
    (h1 : (runDR env db loc rules sess).retval = none)
    (h2 : (runDR env db loc rules sess).raised = none) :
    (runDR env db loc rules sess).checkedOut = true ∧
    (runDR env db loc rules sess).checkedIn = true := by
  unfold runDR at h1 h2 ⊢
  cases hres : resolvePhase env rules with
  | earlyReturn ms => rw [hres] at h1; simp at h1
  | raisedExc ms exc => rw [hres] at h2; simp at h2
  | ok rfo ms => exact ⟨rfl, rfl⟩

/-- Witness for `runDR_checkin`: a run whose guarded phase raises (empty
session cursor) still checks the license in. -/
theorem runDR_checkin_witness :
    (runDR ⟨str "t", str "drbot.py", str "0:01:00.00", none,
        (2, str "No such file or directory"), [], none, [], fun _ => none, []⟩
      (str "db") (str "ws.gdb") (str "r.rbj") (str "s")).retval = none ∧
    (runDR ⟨str "t", str "drbot.py", str "0:01:00.00", none,
        (2, str "No such file or directory"), [], none, [], fun _ => none, []⟩
      (str "db") (str "ws.gdb") (str "r.rbj") (str "s")).raised = none ∧
    ((runDR ⟨str "t", str "drbot.py", str "0:01:00.00", none,
        (2, str "No such file or directory"), [], none, [], fun _ => none, []⟩
      (str "db") (str "ws.gdb") (str "r.rbj") (str "s")).checkedOut = true ∧
    (runDR ⟨str "t", str "drbot.py", str "0:01:00.00", none,
        (2, str "No such file or directory"), [], none, [], fun _ => none, []⟩
      (str "db") (str "ws.gdb") (str "r.rbj") (str "s")).checkedIn = true) :=
  ⟨by decide, by decide,
    runDR_checkin ⟨str "t", str "drbot.py", str "0:01:00.00", none,
        (2, str "No such file or directory"), [], none, [], fun _ => none, []⟩
      (str "db") (str "ws.gdb") (str "r.rbj") (str "s") (by decide) (by decide)⟩

/-- C4 counterexample: when the manifest is missing (IOError with errno
2) the license has been checked out at entry but the early return skips
the check-in, so a run exists with the license checked out and never
checked in. -/
theorem runDR_license_leak :
    (runDR ⟨str "t", str "drbot.py", str "0:01:00.00", none,
        (2, str "No such file or directory"), [], none, [], fun _ => none, []⟩
      (str "db") (str "ws.gdb") (str "rules.txt") (str "s")).checkedOut = true ∧
    (runDR ⟨str "t", str "drbot.py", str "0:01:00.00", none,
        (2, str "No such file or directory"), [], none, [], fun _ => none, []⟩
      (str "db") (str "ws.gdb") (str "rules.txt") (str "s")).checkedIn = false ∧
    (runDR ⟨str "t", str "drbot.py", str "0:01:00.00", none,
        (2, str "No such file or directory"), [], none, [], fun _ => none, []⟩
      (str "db") (str "ws.gdb") (str "rules.txt") (str "s")).retval = some 1 := by
  refine ⟨by decide, by decide, by decide⟩

/-- C7 counterexample: on a non-existent workspace path, `clean_dr_ws`
does not recreate the workspace at all (the `make_dr_gdb` call sits
inside the isdir branch), contradicting the claimed no-op deletion
followed by successful recreation. -/
theorem clean_dr_ws_no_recreate_when_absent :
    (clean_dr_ws (str "ws.gdb") ⟨false, none, ⟨false, none, false, false⟩⟩).madeCall =
      false ∧
    clean_dr_ws (str "ws.gdb") ⟨false, none, ⟨false, none, false, false⟩⟩ =
      ⟨[str "Cleaning up DR gdb..."], false, none⟩ := by
  constructor <;> decide

/-- C7 (amended): `clean_dr_ws` recreates the workspace exactly when the
path exists and deletion did not fail with the in-use code 32: successful
deletion recreates, a code-32 failure logs and returns 1 early without
recreating, any other deletion failure logs and still recreates, and a
non-existent path is left alone entirely (no recreation). -/
theorem clean_dr_ws_spec (loc : PyStr) (env : CleanEnv) :
    (clean_dr_ws loc env).madeCall =
      (env.isdir && (match env.rmtreeErr with
        | some (code, _) => !(code == 32)
        | none => true)) ∧
    (clean_dr_ws loc env).retval =
      (if env.isdir then
        (match env.rmtreeErr with
         | some (code, _) => if code = 32 then some 1 else none
         | none => none)
       else none) := by
  unfold clean_dr_ws
  by_cases hd : env.isdir
  · simp only [hd, if_true]
    cases henv : env.rmtreeErr with
    | none => simp
    | some p =>
      match p with
      | (code, emsg) =>
        by_cases hc : code = 32
        · simp [hc]
        · simp [hc]
  · simp [hd]

/-- C8: `send_email` never raises: a transport failure is caught and
reported on the stdout of the process itself, nothing is appended to the
temporary log, and on success nothing is printed. -/
theorem send_email_never_raises (sendErr : Option PyStr) (log : List PyStr)
    (sender : PyStr) (lst : List PyStr) (subj flag : PyStr) :
    (send_email sendErr log sender lst subj flag).raised = none ∧
    (send_email sendErr log sender lst subj flag).finalLog = log ∧
    (send_email sendErr log sender lst subj flag).stdout =
      (match sendErr with
       | none => []
       | some e => [str "Couldn\x27t send email.", e]) := by
  cases sendErr <;> simp [send_email, smtpSend]

/-- C9 (amended): the clean mode requires the argument vector to be
exactly two entries with the second equal to clean; then only
`clean_dr_ws` runs, followed by the completion log line: no `runDR` (so
no license checkout, rule execution or summarising) and no report. -/
theorem run_clean_exclusive (env : DREnv) (cenv : CleanEnv) (p : PyStr)
    (def_rules db loc : PyStr) :
    run_from_sysargs env cenv [p, str "clean"] def_rules db loc =
      ⟨true, some (clean_dr_ws loc cenv), none, none, [str "Cleanup completed."]⟩ := by
  unfold run_from_sysargs
  rw [if_pos]
  exact ⟨rfl, rfl⟩

/-- C9 counterexample: an invocation whose first argument is clean but
which carries one further argument is not clean mode: the full pipeline
runs (with clean as the rules argument), the license is checked out, and
the report step executes, contradicting the claimed exclusive behaviour
of every invocation whose first argument is clean. -/
theorem run_clean_extra_arg_not_exclusive :
    (run_from_sysargs ⟨str "t", str "drbot.py", str "0:01:00.00", none,
        (2, str "nf"), [], none, [1], fun _ => none, []⟩
      ⟨false, none, ⟨false, none, false, false⟩⟩
      [str "drbot.py", str "clean", str "log.txt"]
      (str "r.rbj") (str "db") (str "ws.gdb")).cleanCalled = false ∧
    ((run_from_sysargs ⟨str "t", str "drbot.py", str "0:01:00.00", none,
        (2, str "nf"), [], none, [1], fun _ => none, []⟩
      ⟨false, none, ⟨false, none, false, false⟩⟩
      [str "drbot.py", str "clean", str "log.txt"]
      (str "r.rbj") (str "db") (str "ws.gdb")).runRes.map RunResult.checkedOut) =
      some true ∧
    ((run_from_sysargs ⟨str "t", str "drbot.py", str "0:01:00.00", none,
        (2, str "nf"), [], none, [1], fun _ => none, []⟩
      ⟨false, none, ⟨false, none, false, false⟩⟩
      [str "drbot.py", str "clean", str "log.txt"]
      (str "r.rbj") (str "db") (str "ws.gdb")).report.map ReportOut.wrote) =
      some true := by
  refine ⟨by decide, by decide, by decide⟩
